import Mathlib

unseal Rat.add Rat.sub Rat.mul Rat.inv

/-!
Verification of the BioOS kernel (src/BioOS_kernel.cpp).

Shallow embedding conventions:
* C++ `float`/`double` values are modelled as exact rationals (`ℚ`); every
  numeric literal appearing in the claims (100, 0.5, 10000, 2.0, 5.0, ...)
  is exactly representable in IEEE floating point, so the rational model
  agrees with the source on all inputs used in the theorems below.
* `std::map<K,V>` is modelled as an association list with unique keys;
  `operator[]`-assignment is replace-or-insert (`insertAL`), `erase` removes
  the entry (`eraseAL`), `find` is `lookupAL`.
* `std::priority_queue` and `std::sort` only guarantee an ordering with
  respect to the supplied comparator; the relative order of elements the
  comparator cannot distinguish is unspecified by the C++ standard.  Those
  two operations are therefore embedded as relations (`PopTop`,
  `ScheduleStep`) that admit every standard-compliant outcome.
* pointers into the process table (`std::shared_ptr<BioProcess>`) alias the
  canonical table entry, so a write through such a pointer is modelled as an
  update of the table entry keyed by the process id.
-/

/-- Lookup in an association list; models `std::map::find` (first matching
key; keys are unique in every state built by the operations below). -/
def lookupAL {α β : Type} [DecidableEq α] : List (α × β) → α → Option β
  | [], _ => none
  | (k, v) :: rest, key => if k = key then some v else lookupAL rest key

/-- Replace-or-insert; models assignment through `std::map::operator[]`:
if the key is present its value is replaced, otherwise a new entry is
added. -/
def insertAL {α β : Type} [DecidableEq α] : List (α × β) → α → β → List (α × β)
  | [], key, val => [(key, val)]
  | (k, v) :: rest, key, val =>
      if k = key then (k, val) :: rest else (k, v) :: insertAL rest key val

/-- Remove the entry with the given key; models `std::map::erase`. -/
def eraseAL {α β : Type} [DecidableEq α] : List (α × β) → α → List (α × β)
  | [], _ => []
  | (k, v) :: rest, key => if k = key then rest else (k, v) :: eraseAL rest key

/-- Process lifecycle states (line 16 of the source). -/
inductive ProcessState where
  | READY | RUNNING | BLOCKED | TERMINATED
deriving DecidableEq

/-- Event type tags (lines 17-20). -/
inductive EventType where
  | CELL_DIVISION | GENE_EXPRESSION | PROTEIN_SYNTHESIS
  | SIGNAL_RECEPTION | APOPTOSIS | MUTATION
deriving DecidableEq

/-- Gene (lines 23-35). -/
structure Gene where
  name : String
  sequence : String
  expression_level : ℚ := 0
deriving DecidableEq

/-- Gene::express (lines 31-34): raise the expression level by 0.1·factor,
capped at 1.  (The C++ also returns the new level; the kernel ignores it.) -/
def Gene.express (g : Gene) (factor : ℚ) : Gene :=
  { g with expression_level := min 1 (g.expression_level + (1 / 10) * factor) }

/-- Protein (lines 38-50). -/
structure Protein where
  name : String
  origin_gene : String
  concentration : ℚ := 0
  half_life : ℚ := 10
deriving DecidableEq

/-- Protein::degrade (lines 47-49). -/
def Protein.degrade (p : Protein) : Protein :=
  { p with concentration := p.concentration * (1 - 1 / p.half_life) }

/-- BiologicalEvent (lines 53-64). -/
structure BiologicalEvent where
  timestamp : ℚ
  event_type : EventType
  source_pid : Nat
deriving DecidableEq

/-- BioProcess (lines 67-99).  The genome and proteome are `std::map`s keyed
by name. -/
structure BioProcess where
  pid : Nat
  name : String
  state : ProcessState := ProcessState.READY
  genome : List (String × Gene) := []
  proteins : List (String × Protein) := []
  energy : ℚ := 100
  age : ℚ := 0
  priority : Int := 5
deriving DecidableEq

/-- BioProcess::update (lines 81-88): age advances, energy decreases by
`delta_time * 0.5` clamped at 0, and every protein degrades. -/
def BioProcess.update (p : BioProcess) (delta_time : ℚ) : BioProcess :=
  { p with
    age := p.age + delta_time
    energy := max 0 (p.energy - delta_time * (1 / 2))
    proteins := p.proteins.map (fun kv => (kv.1, kv.2.degrade)) }

/-- BioProcess::add_gene (lines 90-92): `genome[gene.name] = gene`. -/
def BioProcess.add_gene (p : BioProcess) (gene : Gene) : BioProcess :=
  { p with genome := insertAL p.genome gene.name gene }

/-- BioProcess::express_gene (lines 94-98). -/
def BioProcess.express_gene (p : BioProcess) (gene_name : String) (factor : ℚ) :
    BioProcess :=
  match lookupAL p.genome gene_name with
  | some g => { p with genome := insertAL p.genome gene_name (g.express factor) }
  | none => p

/-- BiologicalMemory (lines 105-143): a single bounded pool with a scalar
free-space counter and a per-entity allocation table. -/
structure BiologicalMemory where
  total_capacity : ℚ
  free_space : ℚ
  allocated : List (Nat × ℚ)
deriving DecidableEq

/-- BiologicalMemory constructor (lines 113-114). -/
def BiologicalMemory.create (capacity : ℚ) : BiologicalMemory :=
  ⟨capacity, capacity, []⟩

/-- BiologicalMemory::allocate (lines 116-124): succeeds whenever
`free_space >= size`; note the source performs NO check whether `entity_id`
already holds an allocation — `allocated[entity_id] = size` silently
replaces an existing record. -/
def BiologicalMemory.allocate (m : BiologicalMemory) (entity_id : Nat) (size : ℚ) :
    Bool × BiologicalMemory :=
  if size ≤ m.free_space then
    (true,
     { m with
       allocated := insertAL m.allocated entity_id size
       free_space := m.free_space - size })
  else (false, m)

/-- BiologicalMemory::deallocate (lines 126-134). -/
def BiologicalMemory.deallocate (m : BiologicalMemory) (entity_id : Nat) :
    Bool × BiologicalMemory :=
  match lookupAL m.allocated entity_id with
  | some size =>
      (true,
       { m with
         free_space := m.free_space + size
         allocated := eraseAL m.allocated entity_id })
  | none => (false, m)

/-- BiologicalMemory::get_usage_percent (lines 136-138). -/
def BiologicalMemory.get_usage_percent (m : BiologicalMemory) : ℚ :=
  (1 - m.free_space / m.total_capacity) * 100

/-- BiologicalMemory::get_free_space (lines 140-142). -/
def BiologicalMemory.get_free_space (m : BiologicalMemory) : ℚ :=
  m.free_space

/-- Sum of the sizes of all active allocation records. -/
def allocSum (m : BiologicalMemory) : ℚ :=
  (m.allocated.map (fun kv => kv.2)).sum

/-- A single call against the memory subsystem, for stating properties of
call sequences. -/
inductive MemOp where
  | alloc (id : Nat) (size : ℚ)
  | dealloc (id : Nat)

/-- Apply one memory call, discarding the boolean result. -/
def applyMemOp (m : BiologicalMemory) : MemOp → BiologicalMemory
  | MemOp.alloc id size => (m.allocate id size).2
  | MemOp.dealloc id => (m.deallocate id).2

/-- Run a sequence of memory calls. -/
def runMemOps (m : BiologicalMemory) : List MemOp → BiologicalMemory
  | [] => m
  | op :: rest => runMemOps (applyMemOp m op) rest

/-- Check that every `alloc` in the sequence targets an id with no active
allocation at the moment of the call (the discipline the kernel's own usage
obeys, since pids are never reused). -/
def freshAllocOps (m : BiologicalMemory) : List MemOp → Bool
  | [] => true
  | MemOp.alloc id size :: rest =>
      (lookupAL m.allocated id).isNone &&
        freshAllocOps (applyMemOp m (MemOp.alloc id size)) rest
  | MemOp.dealloc id :: rest =>
      freshAllocOps (applyMemOp m (MemOp.dealloc id)) rest

/-- ProcessScheduler (lines 149-213): the canonical process table
(`std::map<int, std::shared_ptr<BioProcess>>`, iterated in ascending pid
order), a ready-queue of references into the table, and a monotonically
increasing pid counter. -/
structure ProcessScheduler where
  processes : List (Nat × BioProcess) := []
  ready_queue : List Nat := []
  pid_counter : Nat := 0
deriving DecidableEq

/-- ProcessScheduler::create_process (lines 157-164): take the next pid,
insert a fresh READY process into the table and push it onto the tail of
the ready-queue. -/
def ProcessScheduler.create_process (s : ProcessScheduler) (name : String) :
    Nat × ProcessScheduler :=
  let pid := s.pid_counter
  (pid,
   { s with
     pid_counter := pid + 1
     processes := insertAL s.processes pid
       { pid := pid, name := name }
     ready_queue := s.ready_queue ++ [pid] })

/-- Write through a `shared_ptr` obtained from the table: the pointed-to
object IS the table entry, so the write updates the entry keyed by its
pid. -/
def ProcessScheduler.setProc (s : ProcessScheduler) (pid : Nat) (p : BioProcess) :
    ProcessScheduler :=
  { s with processes := insertAL s.processes pid p }

/-- ProcessScheduler::terminate_process (lines 178-189): if the pid is in
the table (in ANY state, including already TERMINATED) set its state to
TERMINATED, remove every ready-queue occurrence and return true; otherwise
return false. -/
def ProcessScheduler.terminate_process (s : ProcessScheduler) (pid : Nat) :
    Bool × ProcessScheduler :=
  match lookupAL s.processes pid with
  | some p =>
      (true,
       { s with
         processes := insertAL s.processes pid { p with state := ProcessState.TERMINATED }
         ready_queue := s.ready_queue.filter (fun q => q ≠ pid) })
  | none => (false, s)

/-- ProcessScheduler::get_process (lines 191-197). -/
def ProcessScheduler.get_process (s : ProcessScheduler) (pid : Nat) :
    Option BioProcess :=
  lookupAL s.processes pid

/-- ProcessScheduler::get_process_count (lines 199-201). -/
def ProcessScheduler.get_process_count (s : ProcessScheduler) : Nat :=
  s.processes.length

/-- ProcessScheduler::get_all_processes (lines 203-212): every table entry
whose state is not TERMINATED, in table (ascending pid) order. -/
def ProcessScheduler.get_all_processes (s : ProcessScheduler) :
    List (Nat × BioProcess) :=
  s.processes.filter (fun kv => kv.2.state ≠ ProcessState.TERMINATED)

/-- Priority read through a ready-queue reference: the comparator in
`schedule()` dereferences the queue's pointer (`a->priority`).  In every
state the kernel builds, each queued pid has a table entry; the default 0
is only reached on malformed states. -/
def ProcessScheduler.priorityOf (s : ProcessScheduler) (pid : Nat) : Int :=
  match lookupAL s.processes pid with
  | some p => p.priority
  | none => 0

/-- ProcessScheduler::schedule (lines 166-176) as a relation.  `std::sort`
reorders the ready-queue into SOME permutation that is sorted by the
comparator `a->priority < b->priority`; the relative order of
equal-priority elements is unspecified by the C++ standard, so every
comparator-sorted permutation is an admissible outcome.  The front element
is removed and returned; an empty queue returns the null pointer. -/
inductive ScheduleStep : ProcessScheduler → Option Nat → ProcessScheduler → Prop
  | empty (s : ProcessScheduler) :
      s.ready_queue = [] → ScheduleStep s none s
  | pick (s : ProcessScheduler) (p : Nat) (rest : List Nat) :
      s.ready_queue.Perm (p :: rest) →
      List.Chain' (fun a b => s.priorityOf a ≤ s.priorityOf b) (p :: rest) →
      ScheduleStep s (some p) { s with ready_queue := rest }

/-- Repeated calls to `schedule()`, collecting the returned pids (stopping
before any empty return). -/
inductive ScheduleTrace : ProcessScheduler → List Nat → ProcessScheduler → Prop
  | refl (s : ProcessScheduler) : ScheduleTrace s [] s
  | step (s s' s'' : ProcessScheduler) (p : Nat) (ps : List Nat) :
      ScheduleStep s (some p) s' → ScheduleTrace s' ps s'' →
      ScheduleTrace s (p :: ps) s''

/-- One pop of `std::priority_queue<BiologicalEvent>`: removes some element
that is maximal with respect to `BiologicalEvent::operator<` (lines 61-63,
which inverts the timestamp comparison), i.e. an element of minimal
timestamp.  Which element is removed among equal timestamps is unspecified
by the C++ standard; the `l1`/`l2` split pinpoints the popped position in
the emission-ordered pending list. -/
inductive PopTop : List BiologicalEvent → BiologicalEvent → List BiologicalEvent → Prop
  | mk (l1 l2 : List BiologicalEvent) (e : BiologicalEvent) :
      (∀ x ∈ l1 ++ l2, e.timestamp ≤ x.timestamp) →
      PopTop (l1 ++ e :: l2) e (l1 ++ l2)

/-- EventManager::process_events (lines 237-249) as a delivery relation:
starting from the pending events (listed in emission order) it repeatedly
pops a minimal-timestamp event while that timestamp is `≤ current_time`,
recording the delivered events in pop order; it stops when the queue is
empty or the earliest pending timestamp exceeds `current_time`.  Handler
bodies receive the event by value; their effect on external state is not
part of this delivery-order model (see the lock model below for re-entrant
handlers). -/
inductive ProcessEventsRel :
    List BiologicalEvent → ℚ → List BiologicalEvent → List BiologicalEvent → Prop
  | done (q : List BiologicalEvent) (now : ℚ) :
      (∀ x ∈ q, now < x.timestamp) → ProcessEventsRel q now [] q
  | deliver (q : List BiologicalEvent) (now : ℚ) (e : BiologicalEvent)
      (q' ds q'' : List BiologicalEvent) :
      PopTop q e q' → e.timestamp ≤ now →
      ProcessEventsRel q' now ds q'' →
      ProcessEventsRel q now (e :: ds) q''

/-- EventManager with its mutex made explicit (lines 219-250), for the
locking-discipline claim.  A handler body is arbitrary client code; the only
interaction with the manager it can have is calling `emit`, so a handler is
modelled by the list of events it emits when invoked.  `locked` is the
state of the non-re-entrant `std::mutex event_lock`. -/
structure EventManagerL where
  event_queue : List BiologicalEvent
  handlers : List (EventType × List (List BiologicalEvent))
  locked : Bool
deriving DecidableEq

/-- EventManager::subscribe (lines 226-230): append the handler to the
type's callback chain. -/
def EventManagerL.subscribe (m : EventManagerL) (t : EventType)
    (h : List BiologicalEvent) : EventManagerL :=
  let chain := match lookupAL m.handlers t with
    | some hs => hs
    | none => []
  { m with handlers := insertAL m.handlers t (chain ++ [h]) }

/-- EventManager::emit (lines 232-235): `lock_guard` acquires `event_lock`
and pushes the event.  Acquiring a non-recursive `std::mutex` that the
caller already holds (a re-entrant `emit` from a handler running inside
`process_events`) never returns — modelled as `none`. -/
def EventManagerL.emit (m : EventManagerL) (e : BiologicalEvent) :
    Option EventManagerL :=
  if m.locked then none
  else some { m with event_queue := m.event_queue ++ [e] }

/-- Run one handler body: perform its `emit` calls in order. -/
def EventManagerL.runEmits (m : EventManagerL) :
    List BiologicalEvent → Option EventManagerL
  | [] => some m
  | e :: rest =>
      match m.emit e with
      | some m' => m'.runEmits rest
      | none => none

/-- Run a chain of handler bodies in order, threading the manager state;
any body whose `emit` deadlocks aborts the whole dispatch. -/
def EventManagerL.runChain : EventManagerL → List (List BiologicalEvent) → Option EventManagerL
  | m, [] => some m
  | m, h :: rest =>
      match m.runEmits h with
      | some m' => EventManagerL.runChain m' rest
      | none => none

/-- Invoke every handler registered for the event's type, in subscription
order (lines 243-247). -/
def EventManagerL.dispatch (m : EventManagerL) (e : BiologicalEvent) :
    Option EventManagerL :=
  let chain := match lookupAL m.handlers e.event_type with
    | some hs => hs
    | none => []
  m.runChain chain

/-- Pop the earliest-timestamp pending event (first such element; for this
lock model the tie choice is irrelevant — the delivery-order model above
captures the tie nondeterminism). -/
def popTopFirst : List BiologicalEvent → Option (BiologicalEvent × List BiologicalEvent)
  | [] => none
  | e :: rest =>
      match popTopFirst rest with
      | none => some (e, [])
      | some (e', rest') =>
          if e.timestamp ≤ e'.timestamp then some (e, rest) else some (e', e :: rest')

/-- The pop-and-dispatch loop of EventManager::process_events (lines
239-248), executed while `event_lock` is held.  `fuel` only bounds the
recursion; it is always called with more fuel than the queue length, and
under the held lock no dispatch can ever grow the queue (every re-entrant
`emit` deadlocks), so the bound is never reached. -/
def EventManagerL.drainLoop (now : ℚ) : Nat → EventManagerL → Option EventManagerL
  | 0, m => some m
  | fuel + 1, m =>
      match popTopFirst m.event_queue with
      | none => some m
      | some (e, q') =>
          if e.timestamp ≤ now then
            match EventManagerL.dispatch { m with event_queue := q' } e with
            | some m' => EventManagerL.drainLoop now fuel m'
            | none => none
          else some m

/-- EventManager::process_events (lines 237-249) with the mutex explicit:
the `lock_guard` on line 238 holds `event_lock` for the WHOLE pop-and-
dispatch loop, including every handler invocation; `none` means the call
never returns (deadlock on a re-entrant `emit`). -/
def EventManagerL.process_events (m : EventManagerL) (now : ℚ) :
    Option EventManagerL :=
  if m.locked then none
  else
    match EventManagerL.drainLoop now (m.event_queue.length + 1)
        { m with locked := true } with
    | some m' => some { m' with locked := false }
    | none => none

/-- BioOS kernel state (lines 256-344).  `pending_events` is the event
manager's queue in emission order; the kernel model abstracts handler
side effects away (the kernel registers no handlers and handlers have no
access to the scheduler or the memory pool through the kernel interface),
so `process_events` acts on kernel state by discarding exactly the due
events.  `ticks_executed` is instrumentation counting `run_tick`
invocations; no source field corresponds to it and nothing else reads
it. -/
structure BioOS where
  scheduler : ProcessScheduler
  memory : BiologicalMemory
  pending_events : List BiologicalEvent
  time_step : ℚ
  current_time : ℚ
  running : Bool
  ticks_executed : Nat
deriving DecidableEq

/-- BioOS constructor (line 267): time step as given, a fresh pool of
capacity 10000, clock at 0, not running. -/
def BioOS.create (ts : ℚ) : BioOS :=
  { scheduler := {}
    memory := BiologicalMemory.create 10000
    pending_events := []
    time_step := ts
    current_time := 0
    running := false
    ticks_executed := 0 }

/-- BioOS::boot (lines 269-275): console output only. -/
def BioOS.boot (os : BioOS) : BioOS := os

/-- BioOS::create_organism (lines 277-287): create the process, add each
supplied gene through the returned pointer, then call
`memory.allocate(pid, 100.0)` and IGNORE its boolean result. -/
def BioOS.create_organism (os : BioOS) (name : String) (genome_genes : List Gene) :
    Nat × BioOS :=
  let res := os.scheduler.create_process name
  let pid := res.1
  let sched :=
    match lookupAL res.2.processes pid with
    | some p =>
        res.2.setProc pid (genome_genes.foldl (fun q g => q.add_gene g) p)
    | none => res.2
  let mem := (os.memory.allocate pid 100).2
  (pid, { os with scheduler := sched, memory := mem })

/-- Body of the per-entity loop of BioOS::run_tick (lines 294-306), for one
snapshot entry: re-read the entry through the shared pointer, set RUNNING,
run the update, on `energy <= 0` call `terminate_process` then
`deallocate`, and finally — unconditionally — set the state back to READY
through the same pointer (line 304), which overwrites the TERMINATED state
just written by `terminate_process`. -/
def BioOS.tickEntity (os : BioOS) (pid : Nat) : BioOS :=
  match lookupAL os.scheduler.processes pid with
  | none => os
  | some p =>
      if p.state = ProcessState.TERMINATED then os
      else
        let p2 := BioProcess.update { p with state := ProcessState.RUNNING } os.time_step
        let os1 := { os with scheduler := os.scheduler.setProc pid p2 }
        let os2 :=
          if p2.energy ≤ 0 then
            { os1 with
              scheduler := (os1.scheduler.terminate_process pid).2
              memory := (os1.memory.deallocate pid).2 }
          else os1
        match lookupAL os2.scheduler.processes pid with
        | some q =>
            { os2 with
              scheduler := os2.scheduler.setProc pid { q with state := ProcessState.READY } }
        | none => os2

/-- BioOS::run_tick (lines 289-307): advance the clock, drain due events,
then walk the snapshot `get_all_processes()` updating every entity. -/
def BioOS.run_tick (os : BioOS) : BioOS :=
  let t := os.current_time + os.time_step
  let os1 :=
    { os with
      current_time := t
      pending_events := os.pending_events.filter (fun e => decide (t < e.timestamp))
      ticks_executed := os.ticks_executed + 1 }
  ((os1.scheduler.get_all_processes).map (fun kv => kv.1)).foldl BioOS.tickEntity os1

/-- BioOS::shutdown (lines 334-341): console report, then `running = false`. -/
def BioOS.shutdown (os : BioOS) : BioOS :=
  { os with running := false }

/-- Truncation toward zero, the semantics of `static_cast<int>` on a
floating-point value. -/
def cppTruncToInt (q : ℚ) : Int :=
  if 0 ≤ q then Int.floor q else Int.ceil q

/-- The `for (int i = 0; i < ticks && running; ++i)` loop of
BioOS::simulate (lines 316-325); console output and the 1 ms sleep are
dropped. -/
def BioOS.simLoop : Nat → BioOS → BioOS
  | 0, os => os
  | n + 1, os => if os.running then BioOS.simLoop n os.run_tick else os

/-- BioOS::simulate (lines 309-332): boot, set running, compute
`int ticks = static_cast<int>(duration / time_step)` — truncation, NOT a
ceiling — run that many ticks, then shut down. -/
def BioOS.simulate (os : BioOS) (duration : ℚ) : BioOS :=
  let os1 := { os.boot with running := true }
  let ticks := (cppTruncToInt (duration / os.time_step)).toNat
  (BioOS.simLoop ticks os1).shutdown

/-- BioOS::get_current_time (line 343). -/
def BioOS.get_current_time (os : BioOS) : ℚ :=
  os.current_time

/-- One core kernel operation, at the granularity an external caller
observes (each runs to completion under the subsystem locks).  `schedule`
carries the nondeterministic outcome of `ScheduleStep`; `process_events`
discards exactly the due events (its effect on kernel state — handler
side effects being outside the kernel interface). -/
inductive KernelStep : BioOS → BioOS → Prop
  | create_organism (os : BioOS) (name : String) (genes : List Gene) :
      KernelStep os (os.create_organism name genes).2
  | run_tick (os : BioOS) :
      KernelStep os os.run_tick
  | schedule (os : BioOS) (o : Option Nat) (sched' : ProcessScheduler) :
      ScheduleStep os.scheduler o sched' →
      KernelStep os { os with scheduler := sched' }
  | terminate_process (os : BioOS) (pid : Nat) :
      KernelStep os { os with scheduler := (os.scheduler.terminate_process pid).2 }
  | allocate (os : BioOS) (id : Nat) (size : ℚ) :
      KernelStep os { os with memory := (os.memory.allocate id size).2 }
  | deallocate (os : BioOS) (id : Nat) :
      KernelStep os { os with memory := (os.memory.deallocate id).2 }
  | emit (os : BioOS) (e : BiologicalEvent) :
      KernelStep os { os with pending_events := os.pending_events ++ [e] }
  | process_events (os : BioOS) :
      KernelStep os
        { os with
          pending_events :=
            os.pending_events.filter (fun e => decide (os.current_time < e.timestamp)) }
  | boot (os : BioOS) : KernelStep os os.boot
  | shutdown (os : BioOS) : KernelStep os os.shutdown
  | simulate (os : BioOS) (duration : ℚ) :
      KernelStep os (os.simulate duration)

/-- System states reachable from a freshly constructed kernel by core
operations. -/
def BioOS.Reachable (os : BioOS) : Prop :=
  ∃ ts : ℚ, Relation.ReflTransGen KernelStep (BioOS.create ts) os

/-- Lifecycle state of the entity `pid` as recorded in the process table. -/
def BioOS.stateOf (os : BioOS) (pid : Nat) : Option ProcessState :=
  (lookupAL os.scheduler.processes pid).map BioProcess.state

/-! Association-list lemmas shared by the proofs below. -/

theorem lookupAL_insertAL_self {α β : Type} [DecidableEq α]
    (l : List (α × β)) (k : α) (v : β) :
    lookupAL (insertAL l k v) k = some v := by
  induction l with
  | nil => simp [insertAL, lookupAL]
  | cons kv rest ih =>
      by_cases h : kv.1 = k <;> simp [insertAL, lookupAL, h, ih]

theorem lookupAL_insertAL_ne {α β : Type} [DecidableEq α]
    (l : List (α × β)) (k k' : α) (v : β) (h : k ≠ k') :
    lookupAL (insertAL l k v) k' = lookupAL l k' := by
  induction l with
  | nil => simp [insertAL, lookupAL, h]
  | cons kv rest ih =>
      by_cases hk : kv.1 = k <;> simp [insertAL, lookupAL, hk, h, ih]

theorem insertAL_of_lookupAL_none {α β : Type} [DecidableEq α]
    (l : List (α × β)) (k : α) (v : β) (h : lookupAL l k = none) :
    insertAL l k v = l ++ [(k, v)] := by
  induction l with
  | nil => simp [insertAL]
  | cons kv rest ih =>
      by_cases hk : kv.1 = k
      · simp [lookupAL, hk] at h
      · simp [lookupAL, hk] at h
        simp [insertAL, hk, ih h]

theorem lookupAL_none_of_not_mem_keys {α β : Type} [DecidableEq α]
    (l : List (α × β)) (k : α) (h : k ∉ l.map (fun kv => kv.1)) :
    lookupAL l k = none := by
  induction l with
  | nil => rfl
  | cons kv rest ih =>
      simp only [List.map_cons, List.mem_cons] at h
      push_neg at h
      have hne : ¬ kv.1 = k := fun hk => h.1 hk.symm
      simp [lookupAL, hne, ih h.2]

theorem mem_keys_of_lookupAL_some {α β : Type} [DecidableEq α]
    (l : List (α × β)) (k : α) (v : β) (h : lookupAL l k = some v) :
    (k, v) ∈ l := by
  induction l with
  | nil => simp [lookupAL] at h
  | cons kv rest ih =>
      by_cases hk : kv.1 = k
      · simp only [lookupAL, if_pos hk] at h
        cases kv with
        | mk k0 v0 =>
            simp only at hk h
            subst hk
            cases h
            exact List.mem_cons_self _ _
      · simp only [lookupAL, if_neg hk] at h
        exact List.mem_cons_of_mem _ (ih h)

/-! Concrete states used by the counterexample and failing-input theorems. -/

/-- A pool of capacity 10000 after `allocate(1, 5000)` succeeded. -/
def c3_mem : BiologicalMemory := ((BiologicalMemory.create 10000).allocate 1 5000).2

/-- A pool of capacity 10000 after `allocate(1, 5000)` and then
`allocate(1, 3000)` — the same id allocated twice. -/
def c4_mem : BiologicalMemory :=
  runMemOps (BiologicalMemory.create 10000) [MemOp.alloc 1 5000, MemOp.alloc 1 3000]

/-- A scheduler holding exactly one process (pid 0) that has already been
terminated once. -/
def c7_sched : ProcessScheduler :=
  (((({} : ProcessScheduler).create_process "X").2).terminate_process 0).2

/-- A kernel with time step 400 holding one organism: its energy
(100 − 400·0.5, clamped at 0) reaches 0 during the first tick. -/
def c1_os : BioOS := ((BioOS.create 400).create_organism "Organism_1" []).2

/-- The kernel `c1_os` after one `run_tick` (the tick in which the
organism's energy reached 0). -/
def c1_tick : BioOS := c1_os.run_tick

/-- An event manager with one due CELL_DIVISION event pending and one
subscribed CELL_DIVISION handler that calls `emit` once while it runs. -/
def c9_em : EventManagerL :=
  EventManagerL.subscribe ⟨[⟨1, EventType.CELL_DIVISION, 0⟩], [], false⟩
    EventType.CELL_DIVISION [⟨3, EventType.GENE_EXPRESSION, 0⟩]

/-- C1 (code bug): in the tick in which the organism's energy reaches 0 the
kernel does call `terminate_process` and `deallocate` — the allocation is
fully returned (free space back to 10000) — but line 304 then overwrites
the state with READY through the still-held pointer, so at the end of that
same tick the entity's state is READY, not TERMINATED, it is still
returned by `get_all_processes`, and it is still there after the next tick
as well, contradicting the claim that it is TERMINATED and absent from the
live list in every subsequent tick. -/
theorem run_tick_energy_zero_entity_ends_tick_ready :
    c1_tick.stateOf 0 = some ProcessState.READY
    ∧ (lookupAL c1_tick.scheduler.processes 0).map BioProcess.energy = some 0
    ∧ c1_tick.memory.free_space = 10000
    ∧ (c1_tick.scheduler.get_all_processes).map (fun kv => kv.1) = [0]
    ∧ (c1_tick.run_tick.scheduler.get_all_processes).map (fun kv => kv.1) = [0] := by
  decide

/-- C3 (counterexample): with id 1 already holding an active allocation of
5000 and enough free space, `allocate(1, 3000)` SUCCEEDS — silently
replacing the record and leaking the 5000 — whereas the claim requires it
to fail whenever the id has an existing allocation. -/
theorem allocate_ignores_existing_allocation :
    lookupAL c3_mem.allocated 1 = some 5000
    ∧ 3000 ≤ c3_mem.free_space
    ∧ (c3_mem.allocate 1 3000).1 = true
    ∧ lookupAL (c3_mem.allocate 1 3000).2.allocated 1 = some 3000 := by
  decide

/-- C3 (amended): `allocate(id, size)` succeeds — deducting `size` and
recording `id → size`, replacing any existing record for `id` — iff
`free_space ≥ size` alone; a failing call leaves the pool unchanged (hence
`free_space`, the table and `usage_percent()` all unchanged); and the
9999-then-2 scenario against capacity 10000 behaves as claimed: the second
call fails, the pool is unchanged and usage stays at 99.99%. -/
theorem allocate_succeeds_iff_free_space :
    (∀ (m : BiologicalMemory) (id : Nat) (size : ℚ),
        ((m.allocate id size).1 = true ↔ size ≤ m.free_space)
      ∧ ((m.allocate id size).1 = true →
          (m.allocate id size).2.free_space = m.free_space - size
          ∧ lookupAL (m.allocate id size).2.allocated id = some size)
      ∧ ((m.allocate id size).1 = false → (m.allocate id size).2 = m))
    ∧ ((((BiologicalMemory.create 10000).allocate 1 9999).2.allocate 2 2).1 = false
      ∧ (((BiologicalMemory.create 10000).allocate 1 9999).2.allocate 2 2).2
          = ((BiologicalMemory.create 10000).allocate 1 9999).2
      ∧ ((BiologicalMemory.create 10000).allocate 1 9999).2.get_usage_percent
          = 9999 / 100) := by
  refine ⟨fun m id size => ?_, by decide⟩
  by_cases h : size ≤ m.free_space <;>
    simp [BiologicalMemory.allocate, h, lookupAL_insertAL_self]

/-- C3 (witness): the amended theorem applied to a concrete successful
call. -/
theorem allocate_succeeds_iff_free_space_witness :
    ((BiologicalMemory.create 10000).allocate 0 500).1 = true :=
  (allocate_succeeds_iff_free_space.1 (BiologicalMemory.create 10000) 0 500).1.mpr
    (by decide)

/-- C4 (counterexample): the call sequence `allocate(1,5000); allocate(1,3000)`
starting from a fresh pool of capacity 10000 leaves
`free_space + Σ(active allocations) = 2000 + 3000 = 5000 ≠ 10000`: the
second allocate replaces the record for id 1 without crediting the first
5000 back, so conservation fails for this sequence. -/
theorem capacity_conservation_fails_on_duplicate_id_allocate :
    c4_mem.free_space + allocSum c4_mem = 5000
    ∧ c4_mem.total_capacity = 10000
    ∧ c4_mem.free_space + allocSum c4_mem ≠ c4_mem.total_capacity := by
  decide

/-- C7 (counterexample): pid 0 exists and is already TERMINATED, yet
`terminate_process(0)` returns true — the claim requires a failure
indicator (false) for an already-terminated id. -/
theorem terminate_process_true_on_already_terminated :
    (lookupAL c7_sched.processes 0).map BioProcess.state
        = some ProcessState.TERMINATED
    ∧ (c7_sched.terminate_process 0).1 = true := by
  decide

/-- C7 (amended): `terminate_process(id)` returns false iff `id` is absent
from the process table — an already-TERMINATED but known id yields true
(the call is an idempotent success) — and it is a no-op on unknown ids;
`deallocate(id)` returns false, leaving the pool unchanged, iff `id` holds
no active allocation. -/
theorem terminate_deallocate_failure_indicators :
    (∀ (s : ProcessScheduler) (pid : Nat),
        ((s.terminate_process pid).1 = true ↔ (lookupAL s.processes pid).isSome))
    ∧ (∀ (s : ProcessScheduler) (pid : Nat),
        lookupAL s.processes pid = none → (s.terminate_process pid).2 = s)
    ∧ (∀ (m : BiologicalMemory) (id : Nat),
        ((m.deallocate id).1 = true ↔ (lookupAL m.allocated id).isSome))
    ∧ (∀ (m : BiologicalMemory) (id : Nat),
        lookupAL m.allocated id = none → (m.deallocate id).2 = m) := by
  refine ⟨fun s pid => ?_, fun s pid h => ?_, fun m id => ?_, fun m id h => ?_⟩
  · cases h : lookupAL s.processes pid <;>
      simp [ProcessScheduler.terminate_process, h]
  · simp [ProcessScheduler.terminate_process, h]
  · cases h : lookupAL m.allocated id <;>
      simp [BiologicalMemory.deallocate, h]
  · simp [BiologicalMemory.deallocate, h]

/-- C7 (witness): the amended theorem applied to pid 3 in an empty
scheduler and id 3 in a fresh pool. -/
theorem terminate_deallocate_failure_indicators_witness :
    (({} : ProcessScheduler).terminate_process 3).2 = {}
    ∧ ((BiologicalMemory.create 10000).deallocate 3).2 = BiologicalMemory.create 10000 :=
  ⟨terminate_deallocate_failure_indicators.2.1 {} 3 (by decide),
   terminate_deallocate_failure_indicators.2.2.2 (BiologicalMemory.create 10000) 3
     (by decide)⟩

/-- C8 (counterexample): with time step 2 — both operands exactly
representable and the quotient exact in IEEE arithmetic —
`simulate(3.0)` executes `static_cast<int>(3.0 / 2.0) = 1` tick, not
`ceil(3.0 / 2.0) = 2` ticks as the claim states. -/
theorem simulate_runs_trunc_not_ceil_ticks :
    ((BioOS.create 2).simulate 3).ticks_executed = 1
    ∧ Int.ceil ((3 : ℚ) / 2) = 2
    ∧ ((BioOS.create 2).simulate 3).ticks_executed ≠ (Int.ceil ((3 : ℚ) / 2)).toNat := by
  decide

/-- C9 (code bug): `process_events` holds `event_lock` for the whole
pop-and-dispatch loop (the `lock_guard` on line 238 spans the handler
invocations on line 245), so a handler that calls `emit` re-locks the same
non-recursive mutex and the call never returns — modelled as `none` —
instead of queueing the new event for the next draining pass as the claim
requires. -/
theorem process_events_reentrant_emit_deadlocks :
    c9_em.process_events 10 = none := by
  decide

/-! Conservation machinery for C4. -/

/-- No entity id occurs twice in the allocation table (always true of a
`std::map`, and preserved by all the operations below). -/
def keysNodup (m : BiologicalMemory) : Prop :=
  (m.allocated.map (fun kv => kv.1)).Nodup

theorem not_mem_keys_of_lookupAL_none {α β : Type} [DecidableEq α]
    (l : List (α × β)) (k : α) (h : lookupAL l k = none) :
    k ∉ l.map (fun kv => kv.1) := by
  induction l with
  | nil => simp
  | cons kv rest ih =>
      by_cases hk : kv.1 = k
      · simp [lookupAL, hk] at h
      · simp only [lookupAL, if_neg hk] at h
        simp only [List.map_cons, List.mem_cons]
        push_neg
        exact ⟨fun hc => hk hc.symm, ih h⟩

theorem eraseAL_sublist {α β : Type} [DecidableEq α]
    (l : List (α × β)) (k : α) : (eraseAL l k).Sublist l := by
  induction l with
  | nil => simp [eraseAL]
  | cons kv rest ih =>
      by_cases hk : kv.1 = k
      · rw [eraseAL, if_pos hk]
        exact List.sublist_cons_self kv rest
      · rw [eraseAL, if_neg hk]
        exact List.Sublist.cons₂ kv ih

theorem eraseAL_sum {α : Type} [DecidableEq α]
    (l : List (α × ℚ)) (k : α) (v : ℚ)
    (hl : lookupAL l k = some v) (hnd : (l.map (fun kv => kv.1)).Nodup) :
    ((eraseAL l k).map (fun kv => kv.2)).sum = (l.map (fun kv => kv.2)).sum - v := by
  induction l with
  | nil => simp [lookupAL] at hl
  | cons kv rest ih =>
      by_cases hk : kv.1 = k
      · simp only [lookupAL, if_pos hk] at hl
        cases hl
        simp [eraseAL, hk]
      · simp only [lookupAL, if_neg hk] at hl
        simp only [List.map_cons, List.nodup_cons] at hnd
        simp only [eraseAL, if_neg hk, List.map_cons, List.sum_cons, ih hl hnd.2]
        ring

/-- Invariant step: applying any single call that respects the fresh-id
discipline preserves conservation, nodup keys, and the total capacity. -/
theorem applyMemOp_conservation (m : BiologicalMemory) (op : MemOp)
    (hinv : m.free_space + allocSum m = m.total_capacity)
    (hnd : keysNodup m)
    (hfresh : ∀ id size, op = MemOp.alloc id size → lookupAL m.allocated id = none) :
    (applyMemOp m op).free_space + allocSum (applyMemOp m op)
        = (applyMemOp m op).total_capacity
    ∧ keysNodup (applyMemOp m op)
    ∧ (applyMemOp m op).total_capacity = m.total_capacity := by
  cases op with
  | alloc id size =>
      have hnone := hfresh id size rfl
      by_cases h : size ≤ m.free_space
      · have hins := insertAL_of_lookupAL_none m.allocated id size hnone
        refine ⟨?_, ?_, ?_⟩
        · simp only [applyMemOp, BiologicalMemory.allocate, if_pos h, hins, allocSum,
            List.map_append, List.sum_append, List.map_cons, List.sum_cons,
            List.map_nil, List.sum_nil] at *
          linarith [hinv]
        · have hk := not_mem_keys_of_lookupAL_none m.allocated id hnone
          simp only [applyMemOp, BiologicalMemory.allocate, if_pos h, hins, keysNodup,
            List.map_append, List.map_cons, List.map_nil]
          rw [List.nodup_append]
          refine ⟨hnd, List.nodup_singleton _, ?_⟩
          intro a ha hb
          simp only [List.mem_singleton] at hb
          subst hb
          exact hk ha
        · simp [applyMemOp, BiologicalMemory.allocate, if_pos h]
      · simp only [applyMemOp, BiologicalMemory.allocate, if_neg h]
        exact ⟨hinv, hnd, trivial⟩
  | dealloc id =>
      cases hl : lookupAL m.allocated id with
      | none =>
          simp only [applyMemOp, BiologicalMemory.deallocate, hl]
          exact ⟨hinv, hnd, trivial⟩
      | some size =>
          refine ⟨?_, ?_, ?_⟩
          · have hsum := eraseAL_sum m.allocated id size hl hnd
            simp only [applyMemOp, BiologicalMemory.deallocate, hl, allocSum] at *
            linarith [hinv, hsum]
          · have hsub := (eraseAL_sublist m.allocated id).map (fun kv => kv.1)
            simp only [applyMemOp, BiologicalMemory.deallocate, hl, keysNodup]
            exact hnd.sublist hsub
          · simp [applyMemOp, BiologicalMemory.deallocate, hl]

theorem runMemOps_conservation (ops : List MemOp) (m : BiologicalMemory)
    (hinv : m.free_space + allocSum m = m.total_capacity)
    (hnd : keysNodup m)
    (hfresh : freshAllocOps m ops = true) :
    (runMemOps m ops).free_space + allocSum (runMemOps m ops)
        = (runMemOps m ops).total_capacity
    ∧ keysNodup (runMemOps m ops)
    ∧ (runMemOps m ops).total_capacity = m.total_capacity := by
  induction ops generalizing m with
  | nil => exact ⟨hinv, hnd, rfl⟩
  | cons op rest ih =>
      have hstep : ∀ id size, op = MemOp.alloc id size → lookupAL m.allocated id = none := by
        intro id size hop
        subst hop
        simp only [freshAllocOps, Bool.and_eq_true, Option.isNone_iff_eq_none] at hfresh
        exact hfresh.1
      have hrest : freshAllocOps (applyMemOp m op) rest = true := by
        cases op with
        | alloc id size =>
            simp only [freshAllocOps, Bool.and_eq_true] at hfresh
            exact hfresh.2
        | dealloc id => simpa [freshAllocOps] using hfresh
      obtain ⟨h1, h2, h3⟩ := applyMemOp_conservation m op hinv hnd hstep
      obtain ⟨g1, g2, g3⟩ := ih (applyMemOp m op) h1 h2 hrest
      exact ⟨g1, g2, by rw [runMemOps, g3, h3]⟩

theorem freshAllocOps_append_left (pre suf : List MemOp) (m : BiologicalMemory)
    (h : freshAllocOps m (pre ++ suf) = true) : freshAllocOps m pre = true := by
  induction pre generalizing m with
  | nil => rfl
  | cons op rest ih =>
      cases op with
      | alloc id size =>
          simp only [List.cons_append, freshAllocOps, Bool.and_eq_true] at h ⊢
          exact ⟨h.1, ih _ h.2⟩
      | dealloc id =>
          simp only [List.cons_append, freshAllocOps] at h ⊢
          exact ih _ h

/-- C4 (amended): conservation — `free_space + Σ(active allocations) =
total_capacity` at every observation point — holds for every sequence of
allocate/deallocate calls from the initial pool in which no `allocate`
targets an id that currently holds an active allocation (the discipline the
kernel itself obeys, since pids are never reused); the unrestricted claim
fails, see the counterexample. -/
theorem capacity_conservation_for_fresh_id_sequences
    (cap : ℚ) (ops pre suf : List MemOp) (hsplit : ops = pre ++ suf)
    (hfresh : freshAllocOps (BiologicalMemory.create cap) ops = true) :
    (runMemOps (BiologicalMemory.create cap) pre).free_space
        + allocSum (runMemOps (BiologicalMemory.create cap) pre) = cap := by
  subst hsplit
  have hpre := freshAllocOps_append_left pre suf _ hfresh
  have h := runMemOps_conservation pre (BiologicalMemory.create cap)
    (by simp [BiologicalMemory.create, allocSum]) (by simp [keysNodup, BiologicalMemory.create])
    hpre
  rw [h.1, h.2.2]
  rfl

/-- C4 (witness): conservation checked after the first three calls of a
concrete fresh-id sequence against capacity 10000. -/
theorem capacity_conservation_witness :
    (runMemOps (BiologicalMemory.create 10000)
        [MemOp.alloc 1 100, MemOp.alloc 2 200, MemOp.dealloc 1]).free_space
      + allocSum (runMemOps (BiologicalMemory.create 10000)
        [MemOp.alloc 1 100, MemOp.alloc 2 200, MemOp.dealloc 1]) = 10000 :=
  capacity_conservation_for_fresh_id_sequences 10000
    [MemOp.alloc 1 100, MemOp.alloc 2 200, MemOp.dealloc 1, MemOp.alloc 1 50]
    [MemOp.alloc 1 100, MemOp.alloc 2 200, MemOp.dealloc 1] [MemOp.alloc 1 50]
    rfl (by decide)

/-! C10: create_organism ignores the allocation result. -/

theorem foldl_add_gene_state (genes : List Gene) (p : BioProcess) :
    (genes.foldl (fun q g => q.add_gene g) p).state = p.state := by
  induction genes generalizing p with
  | nil => rfl
  | cons g rest ih => simpa [BioProcess.add_gene] using ih (p.add_gene g)

/-- C10 (confirmed): when the pool has less than 100 units free,
`create_organism` still creates and returns the next pid: the new entity is
in the process table in READY state and appears in `get_all_processes`
(the live list), while the failed `allocate(pid, 100.0)` — whose result is
discarded on line 285 — leaves the memory pool entirely unchanged, so the
entity holds no resource allocation. -/
theorem create_organism_succeeds_without_allocation
    (os : BioOS) (name : String) (genes : List Gene)
    (hfree : os.memory.free_space < 100) :
    (os.create_organism name genes).1 = os.scheduler.pid_counter
    ∧ (os.create_organism name genes).2.memory = os.memory
    ∧ (os.create_organism name genes).2.stateOf (os.create_organism name genes).1
        = some ProcessState.READY
    ∧ (os.create_organism name genes).1
        ∈ ((os.create_organism name genes).2.scheduler.get_all_processes).map
            (fun kv => kv.1) := by
  have hmem : ((os.create_organism name genes).2).memory = os.memory := by
    simp [BioOS.create_organism, BiologicalMemory.allocate, not_le.mpr hfree]
  have hpid : (os.create_organism name genes).1 = os.scheduler.pid_counter := rfl
  have hlook :
      lookupAL ((os.create_organism name genes).2).scheduler.processes
          os.scheduler.pid_counter
        = some ((genes.foldl (fun q g => q.add_gene g)
            { pid := os.scheduler.pid_counter, name := name })) := by
    simp [BioOS.create_organism, ProcessScheduler.create_process,
      ProcessScheduler.setProc, lookupAL_insertAL_self]
  have hstate : (os.create_organism name genes).2.stateOf
      (os.create_organism name genes).1 = some ProcessState.READY := by
    rw [hpid, BioOS.stateOf, hlook]
    simp [foldl_add_gene_state]
  refine ⟨hpid, hmem, hstate, ?_⟩
  rw [hpid]
  have hm := mem_keys_of_lookupAL_some _ _ _ hlook
  simp only [ProcessScheduler.get_all_processes]
  refine List.mem_map.mpr ⟨_, List.mem_filter.mpr ⟨hm, ?_⟩, rfl⟩
  simp [foldl_add_gene_state]

/-- C10 (witness): a kernel whose pool has only 50 free units still creates
entity 0, READY, live, with the pool untouched. -/
theorem create_organism_succeeds_without_allocation_witness :
    (({ BioOS.create 1 with
          memory := ⟨10000, 50, [(7, 9950)]⟩ }).create_organism "Organism_1" []).2.memory
        = (⟨10000, 50, [(7, 9950)]⟩ : BiologicalMemory)
    ∧ (({ BioOS.create 1 with
          memory := ⟨10000, 50, [(7, 9950)]⟩ }).create_organism "Organism_1" []).2.stateOf
          0 = some ProcessState.READY := by
  have h := create_organism_succeeds_without_allocation
    { BioOS.create 1 with memory := ⟨10000, 50, [(7, 9950)]⟩ }
    "Organism_1" [] (by decide)
  exact ⟨h.2.1, h.2.2.1⟩

/-! C5: event delivery order. -/

theorem popTop_perm (q : List BiologicalEvent) (e : BiologicalEvent)
    (q' : List BiologicalEvent) (h : PopTop q e q') : q.Perm (e :: q') := by
  cases h with
  | mk l1 l2 e hmin => exact List.perm_middle

theorem popTop_min (q : List BiologicalEvent) (e : BiologicalEvent)
    (q' : List BiologicalEvent) (h : PopTop q e q') :
    ∀ x ∈ q', e.timestamp ≤ x.timestamp := by
  cases h with
  | mk l1 l2 e hmin => exact hmin

theorem processEventsRel_perm (q : List BiologicalEvent) (now : ℚ)
    (ds q₂ : List BiologicalEvent) (h : ProcessEventsRel q now ds q₂) :
    q.Perm (ds ++ q₂) := by
  induction h with
  | done q now hq => exact List.Perm.refl _
  | deliver q now e q' ds q₂ hpop hdue _ ih =>
      exact (popTop_perm _ _ _ hpop).trans (ih.cons e)

/-- C5 (amended): for EVERY standard-compliant execution, `process_events`
delivers exactly the due events — the pending list is a permutation of
delivered-plus-remaining, so each event is consumed exactly once — every
delivered timestamp is `≤ current_time`, every remaining timestamp is
`> current_time`, and delivery is in non-decreasing timestamp order.  The
relative delivery order of events with EQUAL timestamps is unspecified (the
comparator on line 61-63 compares only timestamps), so the original
claim's emission-order tie-break does not hold; see the counterexample. -/
theorem process_events_delivers_due_in_timestamp_order
    (q : List BiologicalEvent) (now : ℚ) (ds q₂ : List BiologicalEvent)
    (h : ProcessEventsRel q now ds q₂) :
    q.Perm (ds ++ q₂)
    ∧ (∀ e ∈ ds, e.timestamp ≤ now)
    ∧ (∀ e ∈ q₂, now < e.timestamp)
    ∧ List.Chain' (fun a b => a.timestamp ≤ b.timestamp) ds := by
  induction h with
  | done q now hq =>
      exact ⟨List.Perm.refl _, by simp, hq, List.chain'_nil⟩
  | deliver q now e q' ds q₂ hpop hdue hrest ih =>
      obtain ⟨ihperm, ihdue, ihrem, ihchain⟩ := ih
      refine ⟨(popTop_perm _ _ _ hpop).trans (ihperm.cons e), ?_, ihrem, ?_⟩
      · intro x hx
        rcases List.mem_cons.mp hx with hx | hx
        · exact hx ▸ hdue
        · exact ihdue x hx
      · rw [List.chain'_cons']
        refine ⟨?_, ihchain⟩
        intro b hb
        have hbds : b ∈ ds := by
          cases ds with
          | nil => simp at hb
          | cons d ds' =>
              simp only [List.head?_cons, Option.mem_def, Option.some.injEq] at hb
              exact hb ▸ List.mem_cons_self _ _
        have hbq' : b ∈ q' := (processEventsRel_perm _ _ _ _ hrest).mem_iff.mpr
          (List.mem_append.mpr (Or.inl hbds))
        exact popTop_min _ _ _ hpop b hbq'

/-- The three events of the claim's scenario, listed in emission order:
timestamps 5.0, then 2.0, then a second 2.0. -/
def ev_5 : BiologicalEvent := ⟨5, EventType.CELL_DIVISION, 0⟩

/-- First event emitted with timestamp 2.0. -/
def ev_2a : BiologicalEvent := ⟨2, EventType.GENE_EXPRESSION, 1⟩

/-- Second event emitted with timestamp 2.0. -/
def ev_2b : BiologicalEvent := ⟨2, EventType.GENE_EXPRESSION, 2⟩

/-- C5 (counterexample): from the queue emitted as [5.0, 2.0(first),
2.0(second)], a standard-compliant execution of `process_events(10.0)` may
deliver [2.0(second), 2.0(first), 5.0] — the comparator gives the heap no
information to break the 2.0-tie by emission order — refuting the claimed
mandatory delivery order [2.0(first), 2.0(second), 5.0]. -/
theorem process_events_tie_order_not_emission_order :
    ¬ (∀ ds q₂ : List BiologicalEvent,
        ProcessEventsRel [ev_5, ev_2a, ev_2b] 10 ds q₂ →
          ds = [ev_2a, ev_2b, ev_5]) := by
  intro hclaim
  have d3 : ProcessEventsRel [ev_5] 10 [ev_5] [] :=
    ProcessEventsRel.deliver _ _ _ _ _ _
      (PopTop.mk [] [] ev_5 (by decide)) (by decide)
      (ProcessEventsRel.done [] 10 (by simp))
  have d2 : ProcessEventsRel [ev_5, ev_2a] 10 [ev_2a, ev_5] [] :=
    ProcessEventsRel.deliver _ _ _ _ _ _
      (PopTop.mk [ev_5] [] ev_2a (by decide)) (by decide) d3
  have d1 : ProcessEventsRel [ev_5, ev_2a, ev_2b] 10 [ev_2b, ev_2a, ev_5] [] :=
    ProcessEventsRel.deliver _ _ _ _ _ _
      (PopTop.mk [ev_5, ev_2a] [] ev_2b (by decide)) (by decide) d2
  have := hclaim [ev_2b, ev_2a, ev_5] [] d1
  simp [ev_2a, ev_2b, ev_5] at this

/-- C5 (witness): the amended theorem applied to the execution that
delivers [2.0(first), 2.0(second), 5.0] from the claim's scenario. -/
theorem process_events_delivery_witness :
    ([ev_5, ev_2a, ev_2b] : List BiologicalEvent).Perm ([ev_2a, ev_2b, ev_5] ++ [])
    ∧ (∀ e ∈ [ev_2a, ev_2b, ev_5], e.timestamp ≤ 10)
    ∧ (∀ e ∈ ([] : List BiologicalEvent), (10:ℚ) < e.timestamp)
    ∧ List.Chain' (fun a b => a.timestamp ≤ b.timestamp) [ev_2a, ev_2b, ev_5] := by
  have d3 : ProcessEventsRel [ev_5] 10 [ev_5] [] :=
    ProcessEventsRel.deliver _ _ _ _ _ _
      (PopTop.mk [] [] ev_5 (by decide)) (by decide)
      (ProcessEventsRel.done [] 10 (by simp))
  have d2 : ProcessEventsRel [ev_5, ev_2b] 10 [ev_2b, ev_5] [] :=
    ProcessEventsRel.deliver _ _ _ _ _ _
      (PopTop.mk [ev_5] [] ev_2b (by decide)) (by decide) d3
  have d1 : ProcessEventsRel [ev_5, ev_2a, ev_2b] 10 [ev_2a, ev_2b, ev_5] [] :=
    ProcessEventsRel.deliver _ _ _ _ _ _
      (PopTop.mk [ev_5] [ev_2b] ev_2a (by decide)) (by decide) d2
  exact process_events_delivers_due_in_timestamp_order _ _ _ _ d1

/-! C6: schedule ordering. -/

theorem pairwise_of_chain_le (f : Nat → Int) (l : List Nat)
    (h : List.Chain' (fun a b => f a ≤ f b) l) :
    l.Pairwise (fun a b => f a ≤ f b) := by
  haveI : IsTrans Nat (fun a b => f a ≤ f b) := ⟨fun a b c hab hbc => le_trans hab hbc⟩
  exact List.chain'_iff_pairwise.mp h

theorem scheduleStep_processes (s : ProcessScheduler) (o : Option Nat)
    (s' : ProcessScheduler) (h : ScheduleStep s o s') : s'.processes = s.processes := by
  cases h <;> rfl

theorem scheduleTrace_mem_queue (s : ProcessScheduler) (ps : List Nat)
    (s₂ : ProcessScheduler) (h : ScheduleTrace s ps s₂) :
    ∀ p ∈ ps, p ∈ s.ready_queue := by
  induction h with
  | refl s => simp
  | step s s' s'' p ps hstep htrace ih =>
      intro x hx
      cases hstep with
      | pick p' rest hperm hsorted =>
          rcases List.mem_cons.mp hx with hx | hx
          · exact hx ▸ hperm.symm.subset (List.mem_cons_self _ _)
          · have : x ∈ rest := by simpa using ih x hx
            exact hperm.symm.subset (List.mem_cons_of_mem _ this)

/-- C6 (amended): every standard-compliant sequence of `schedule()` calls
returns pids whose priorities are non-decreasing — `std::sort` orders the
ready-queue by the comparator `a->priority < b->priority` and the front is
extracted — and `schedule()` on an empty ready-queue returns the null
pointer.  The relative order of EQUAL-priority entries is unspecified by
the C++ standard (`std::sort` is not stable), so the original claim's
insertion-order tie-break is not guaranteed; see the counterexample. -/
theorem schedule_returns_ascending_priorities
    (s : ProcessScheduler) (ps : List Nat) (s₂ : ProcessScheduler)
    (h : ScheduleTrace s ps s₂) :
    List.Chain' (fun a b => s.priorityOf a ≤ s.priorityOf b) ps
    ∧ (s.ready_queue = [] → ScheduleStep s none s) := by
  refine ⟨?_, fun he => ScheduleStep.empty s he⟩
  induction h with
  | refl s => exact List.chain'_nil
  | step s s' s'' p ps hstep htrace ih =>
      rw [List.chain'_cons']
      have hpr : s'.priorityOf = s.priorityOf := by
        cases hstep with
        | pick p' rest hperm hsorted => rfl
      refine ⟨?_, by rw [← hpr]; exact ih⟩
      intro q hq
      have hqps : q ∈ ps := by
        cases ps with
        | nil => simp at hq
        | cons d ds =>
            simp only [List.head?_cons, Option.mem_def, Option.some.injEq] at hq
            exact hq ▸ List.mem_cons_self _ _
      cases hstep with
      | pick p' rest hperm hsorted =>
          have hqrest : q ∈ rest := by
            have := scheduleTrace_mem_queue _ _ _ htrace q hqps
            simpa using this
          have hpw := pairwise_of_chain_le s.priorityOf (p :: rest) hsorted
          exact (List.pairwise_cons.mp hpw).1 q hqrest

/-- A scheduler holding two processes with EQUAL priority 1, inserted into
the ready-queue in pid order [0, 1]. -/
def c6_sched : ProcessScheduler :=
  { processes :=
      [(0, { pid := 0, name := "A", priority := 1 }),
       (1, { pid := 1, name := "B", priority := 1 })]
    ready_queue := [0, 1]
    pid_counter := 2 }

/-- C6 (counterexample): with two equal-priority entities inserted in the
order 0, 1, a standard-compliant `schedule()` call may return entity 1
first — `std::sort` gives no stability guarantee for elements the
comparator cannot distinguish — refuting the claim that equal-priority
entities are returned in insertion order (which demands 0 first). -/
theorem schedule_tie_order_not_insertion_order :
    ¬ (∀ (p : Nat) (s' : ProcessScheduler),
        ScheduleStep c6_sched (some p) s' → p = 0) := by
  intro hclaim
  have hstep : ScheduleStep c6_sched (some 1)
      { c6_sched with ready_queue := [0] } :=
    ScheduleStep.pick c6_sched 1 [0] (by decide)
      (by norm_num [List.chain'_cons, List.chain'_singleton,
            ProcessScheduler.priorityOf, c6_sched, lookupAL])
  exact absurd (hclaim 1 _ hstep) (by decide)

/-- A scheduler holding the claim's three entities with priorities
[5, 1, 3] (pids 0, 1, 2 in insertion order). -/
def c6_sched513 : ProcessScheduler :=
  { processes :=
      [(0, { pid := 0, name := "P5", priority := 5 }),
       (1, { pid := 1, name := "P1", priority := 1 }),
       (2, { pid := 2, name := "P3", priority := 3 })]
    ready_queue := [0, 1, 2]
    pid_counter := 3 }

/-- C6 (witness): the amended theorem applied to the trace that drains the
priorities-[5,1,3] queue, returning pids 1, 2, 0 (priorities 1, 3, 5). -/
theorem schedule_ascending_witness :
    List.Chain' (fun a b => c6_sched513.priorityOf a ≤ c6_sched513.priorityOf b)
      [1, 2, 0] := by
  have t3 : ScheduleStep { c6_sched513 with ready_queue := [0] } (some 0)
      { { c6_sched513 with ready_queue := [0] } with ready_queue := [] } :=
    ScheduleStep.pick _ 0 [] (by decide) (by simp)
  have t2 : ScheduleStep { c6_sched513 with ready_queue := [2, 0] } (some 2)
      { { c6_sched513 with ready_queue := [2, 0] } with ready_queue := [0] } :=
    ScheduleStep.pick _ 2 [0] (by decide)
      (by norm_num [List.chain'_cons, List.chain'_singleton,
            ProcessScheduler.priorityOf, c6_sched513, lookupAL])
  have t1 : ScheduleStep c6_sched513 (some 1)
      { c6_sched513 with ready_queue := [2, 0] } :=
    ScheduleStep.pick _ 1 [2, 0] (by decide)
      (by norm_num [List.chain'_cons, List.chain'_singleton,
            ProcessScheduler.priorityOf, c6_sched513, lookupAL])
  have htrace : ScheduleTrace c6_sched513 [1, 2, 0]
      { c6_sched513 with ready_queue := [] } :=
    ScheduleTrace.step _ _ _ _ _ t1
      (ScheduleTrace.step _ _ _ _ _ t2
        (ScheduleTrace.step _ _ _ _ _ t3 (ScheduleTrace.refl _)))
  exact (schedule_returns_ascending_priorities _ _ _ htrace).1

theorem tickEntity_fields (os : BioOS) (pid : Nat) :
    (os.tickEntity pid).ticks_executed = os.ticks_executed
    ∧ (os.tickEntity pid).running = os.running
    ∧ (os.tickEntity pid).current_time = os.current_time
    ∧ (os.tickEntity pid).time_step = os.time_step
    ∧ (os.tickEntity pid).pending_events = os.pending_events := by
  unfold BioOS.tickEntity
  split
  · exact ⟨rfl, rfl, rfl, rfl, rfl⟩
  · split
    · exact ⟨rfl, rfl, rfl, rfl, rfl⟩
    · dsimp only
      refine ⟨?_, ?_, ?_, ?_, ?_⟩ <;> (split <;> (try split) <;> rfl)

theorem foldl_tickEntity_fields (pids : List Nat) (os : BioOS) :
    (pids.foldl BioOS.tickEntity os).ticks_executed = os.ticks_executed
    ∧ (pids.foldl BioOS.tickEntity os).running = os.running
    ∧ (pids.foldl BioOS.tickEntity os).current_time = os.current_time
    ∧ (pids.foldl BioOS.tickEntity os).time_step = os.time_step := by
  induction pids generalizing os with
  | nil => exact ⟨rfl, rfl, rfl, rfl⟩
  | cons p rest ih =>
      obtain ⟨h1, h2, h3, h4, _⟩ := tickEntity_fields os p
      obtain ⟨g1, g2, g3, g4⟩ := ih (os.tickEntity p)
      exact ⟨g1.trans h1, g2.trans h2, g3.trans h3, g4.trans h4⟩

theorem run_tick_fields (os : BioOS) :
    os.run_tick.ticks_executed = os.ticks_executed + 1
    ∧ os.run_tick.running = os.running
    ∧ os.run_tick.current_time = os.current_time + os.time_step
    ∧ os.run_tick.time_step = os.time_step := by
  unfold BioOS.run_tick
  obtain ⟨h1, h2, h3, h4⟩ := foldl_tickEntity_fields
    ((({ os with
        current_time := os.current_time + os.time_step
        pending_events := os.pending_events.filter
          (fun e => decide (os.current_time + os.time_step < e.timestamp))
        ticks_executed := os.ticks_executed + 1 } : BioOS).scheduler.get_all_processes).map
      (fun kv => kv.1))
    { os with
      current_time := os.current_time + os.time_step
      pending_events := os.pending_events.filter
        (fun e => decide (os.current_time + os.time_step < e.timestamp))
      ticks_executed := os.ticks_executed + 1 }
  exact ⟨h1, h2, h3, h4⟩

theorem simLoop_fields (n : Nat) : ∀ os : BioOS, os.running = true →
    (BioOS.simLoop n os).ticks_executed = os.ticks_executed + n
    ∧ (BioOS.simLoop n os).running = true := by
  induction n with
  | zero => intro os h; exact ⟨rfl, h⟩
  | succ n ih =>
      intro os h
      rw [BioOS.simLoop, h]
      simp only [if_true]
      obtain ⟨h1, h2, _, _⟩ := run_tick_fields os
      obtain ⟨g1, g2⟩ := ih os.run_tick (h2.trans h)
      constructor
      · rw [g1, h1]; omega
      · exact g2

/-- C8 (amended): for positive duration and time step, `simulate(duration)`
executes exactly `trunc(duration / time_step)` ticks — the truncation
toward zero performed by `static_cast<int>` on line 312, i.e. the FLOOR of
the positive quotient, not its ceiling — and ends with the kernel stopped.
(The quotient is the exact rational one; it coincides with the IEEE double
quotient whenever that division is exact, as in every scenario stated by
the spec.) -/
theorem simulate_tick_count_is_trunc (ts d : ℚ) (hts : 0 < ts) (hd : 0 < d) :
    ((BioOS.create ts).simulate d).ticks_executed = (Int.floor (d / ts)).toNat
    ∧ ((BioOS.create ts).simulate d).running = false := by
  have hdiv : 0 ≤ d / ts := le_of_lt (div_pos hd hts)
  have htr : cppTruncToInt (d / ts) = Int.floor (d / ts) := by
    rw [cppTruncToInt, if_pos hdiv]
  obtain ⟨h1, h2⟩ := simLoop_fields ((cppTruncToInt (d / ts)).toNat)
    { (BioOS.create ts).boot with running := true } rfl
  refine ⟨?_, rfl⟩
  show (BioOS.simLoop ((cppTruncToInt (d / ts)).toNat)
      { (BioOS.create ts).boot with running := true }).ticks_executed
    = (Int.floor (d / ts)).toNat
  rw [h1, htr]
  simp [BioOS.boot, BioOS.create]

/-- C8 (witness): the amended theorem at time step 2 and duration 5 —
`floor(5/2) = 2` ticks are executed. -/
theorem simulate_tick_count_witness :
    ((BioOS.create 2).simulate 5).ticks_executed = (Int.floor ((5 : ℚ) / 2)).toNat
    ∧ ((BioOS.create 2).simulate 5).running = false :=
  simulate_tick_count_is_trunc 2 5 (by norm_num) (by norm_num)

theorem mem_insertAL {α β : Type} [DecidableEq α]
    (l : List (α × β)) (k : α) (v : β) (kv : α × β)
    (h : kv ∈ insertAL l k v) : kv.1 = k ∨ kv ∈ l := by
  induction l with
  | nil =>
      simp only [insertAL, List.mem_singleton] at h
      exact Or.inl (by rw [h])
  | cons kv0 rest ih =>
      by_cases hk : kv0.1 = k
      · rw [insertAL, if_pos hk] at h
        rcases List.mem_cons.mp h with he | hm
        · exact Or.inl (by rw [he, ← hk])
        · exact Or.inr (List.mem_cons_of_mem _ hm)
      · rw [insertAL, if_neg hk] at h
        rcases List.mem_cons.mp h with he | hm
        · exact Or.inr (he ▸ List.mem_cons_self _ _)
        · rcases ih hm with h1 | h2
          · exact Or.inl h1
          · exact Or.inr (List.mem_cons_of_mem _ h2)

/-- Every table key is below the pid counter — true of every reachable
scheduler, since `create_process` hands out counter values monotonically. -/
def schedBounded (s : ProcessScheduler) : Prop :=
  ∀ kv ∈ s.processes, kv.1 < s.pid_counter

theorem schedBounded_setProc (s : ProcessScheduler) (pid : Nat) (p : BioProcess)
    (hb : schedBounded s) (hpid : pid < s.pid_counter) :
    schedBounded (s.setProc pid p) := by
  intro kv h
  rcases mem_insertAL _ _ _ _ h with he | hm
  · exact he ▸ hpid
  · exact hb kv hm

theorem terminate_counter (s : ProcessScheduler) (pid : Nat) :
    (s.terminate_process pid).2.pid_counter = s.pid_counter := by
  unfold ProcessScheduler.terminate_process
  split <;> rfl

theorem schedBounded_terminate (s : ProcessScheduler) (pid : Nat)
    (hb : schedBounded s) : schedBounded (s.terminate_process pid).2 := by
  unfold ProcessScheduler.terminate_process
  split
  next p h1 =>
      intro kv h
      rcases mem_insertAL _ _ _ _ h with he | hm
      · have hlt := hb _ (mem_keys_of_lookupAL_some _ _ _ h1)
        rw [he]
        exact hlt
      · exact hb kv hm
  next => exact hb

theorem tickEntity_sched (os : BioOS) (q : Nat) (hb : schedBounded os.scheduler) :
    schedBounded (os.tickEntity q).scheduler
    ∧ (os.tickEntity q).scheduler.pid_counter = os.scheduler.pid_counter := by
  unfold BioOS.tickEntity
  split
  · exact ⟨hb, rfl⟩
  next p h1 =>
    split
    · exact ⟨hb, rfl⟩
    next hterm =>
      dsimp only
      have hq : q < os.scheduler.pid_counter := hb _ (mem_keys_of_lookupAL_some _ _ _ h1)
      split
      next q2 h2 =>
        constructor
        · apply schedBounded_setProc
          · split
            · apply schedBounded_terminate
              exact schedBounded_setProc _ _ _ hb hq
            · exact schedBounded_setProc _ _ _ hb hq
          · split
            · rw [terminate_counter]
              exact hq
            · exact hq
        · split <;> simp [terminate_counter, ProcessScheduler.setProc]
      next h2 =>
        constructor
        · split
          · apply schedBounded_terminate
            exact schedBounded_setProc _ _ _ hb hq
          · exact schedBounded_setProc _ _ _ hb hq
        · split <;> simp [terminate_counter, ProcessScheduler.setProc]

theorem stateOf_tickEntity_other (os : BioOS) (q pid : Nat) (h : pid ≠ q) :
    (os.tickEntity q).stateOf pid = os.stateOf pid := by
  have hne : q ≠ pid := Ne.symm h
  unfold BioOS.tickEntity
  split
  · rfl
  next p h1 =>
    split
    · rfl
    next hterm =>
      dsimp only
      split
      next q2 h2 =>
        simp only [BioOS.stateOf, ProcessScheduler.setProc,
          lookupAL_insertAL_ne _ _ _ _ hne]
        split
        next hen =>
          simp only [ProcessScheduler.terminate_process, ProcessScheduler.setProc,
            lookupAL_insertAL_self]
          simp only [lookupAL_insertAL_ne _ _ _ _ hne]
        next hen =>
          simp only [ProcessScheduler.setProc, lookupAL_insertAL_ne _ _ _ _ hne]
      next h2 =>
        split
        next hen =>
          simp only [BioOS.stateOf, ProcessScheduler.terminate_process,
            ProcessScheduler.setProc, lookupAL_insertAL_self]
          simp only [lookupAL_insertAL_ne _ _ _ _ hne]
        next hen =>
          simp only [BioOS.stateOf, ProcessScheduler.setProc,
            lookupAL_insertAL_ne _ _ _ _ hne]

theorem stateOf_some_terminated (os : BioOS) (pid : Nat)
    (h : os.stateOf pid = some ProcessState.TERMINATED) :
    ∃ p, lookupAL os.scheduler.processes pid = some p
      ∧ p.state = ProcessState.TERMINATED := by
  rw [BioOS.stateOf] at h
  cases hl : lookupAL os.scheduler.processes pid with
  | none => rw [hl] at h; simp at h
  | some p =>
      rw [hl] at h
      exact ⟨p, rfl, by simpa using h⟩

theorem tickEntity_preserves_terminated (os : BioOS) (q pid : Nat)
    (h : os.stateOf pid = some ProcessState.TERMINATED) :
    (os.tickEntity q).stateOf pid = some ProcessState.TERMINATED := by
  by_cases hpq : pid = q
  · subst hpq
    obtain ⟨p, hl, hs⟩ := stateOf_some_terminated os pid h
    unfold BioOS.tickEntity
    rw [hl]
    simp only [hs, if_pos rfl]
    exact h
  · rw [stateOf_tickEntity_other os q pid hpq]
    exact h

theorem foldl_tickEntity_preserves_terminated (pids : List Nat) (os : BioOS)
    (pid : Nat) (h : os.stateOf pid = some ProcessState.TERMINATED) :
    (pids.foldl BioOS.tickEntity os).stateOf pid = some ProcessState.TERMINATED := by
  induction pids generalizing os with
  | nil => exact h
  | cons q rest ih => exact ih _ (tickEntity_preserves_terminated os q pid h)

theorem run_tick_preserves_terminated (os : BioOS) (pid : Nat)
    (h : os.stateOf pid = some ProcessState.TERMINATED) :
    os.run_tick.stateOf pid = some ProcessState.TERMINATED := by
  unfold BioOS.run_tick
  exact foldl_tickEntity_preserves_terminated _ _ _ h

theorem simLoop_preserves_terminated (n : Nat) : ∀ (os : BioOS) (pid : Nat),
    os.stateOf pid = some ProcessState.TERMINATED →
    (BioOS.simLoop n os).stateOf pid = some ProcessState.TERMINATED := by
  induction n with
  | zero => intro os pid h; exact h
  | succ n ih =>
      intro os pid h
      rw [BioOS.simLoop]
      split
      · exact ih _ _ (run_tick_preserves_terminated os pid h)
      · exact h

theorem create_organism_preserves_terminated (os : BioOS) (name : String)
    (genes : List Gene) (hb : schedBounded os.scheduler) (pid : Nat)
    (h : os.stateOf pid = some ProcessState.TERMINATED) :
    ((os.create_organism name genes).2).stateOf pid
      = some ProcessState.TERMINATED := by
  obtain ⟨p, hl, hs⟩ := stateOf_some_terminated os pid h
  have hlt : pid < os.scheduler.pid_counter :=
    hb _ (mem_keys_of_lookupAL_some _ _ _ hl)
  have hne : os.scheduler.pid_counter ≠ pid := fun hc => absurd (hc ▸ hlt) (lt_irrefl _)
  unfold BioOS.create_organism
  dsimp only
  simp only [ProcessScheduler.create_process, ProcessScheduler.setProc,
    lookupAL_insertAL_self]
  simp only [BioOS.stateOf, lookupAL_insertAL_ne _ _ _ _ hne, hl, hs,
    Option.map_some']

theorem terminate_preserves_terminated (os : BioOS) (pid2 pid : Nat)
    (h : os.stateOf pid = some ProcessState.TERMINATED) :
    BioOS.stateOf { os with scheduler := (os.scheduler.terminate_process pid2).2 } pid
      = some ProcessState.TERMINATED := by
  by_cases hpq : pid2 = pid
  · subst hpq
    obtain ⟨p, hl, hs⟩ := stateOf_some_terminated os pid2 h
    simp only [BioOS.stateOf, ProcessScheduler.terminate_process, hl,
      lookupAL_insertAL_self, Option.map_some']
  · unfold ProcessScheduler.terminate_process
    split
    next p hl =>
      simpa [BioOS.stateOf, lookupAL_insertAL_ne _ _ _ _ hpq] using h
    next => exact h

theorem kernelStep_preserves_terminated (os os' : BioOS) (pid : Nat)
    (hb : schedBounded os.scheduler) (hstep : KernelStep os os')
    (h : os.stateOf pid = some ProcessState.TERMINATED) :
    os'.stateOf pid = some ProcessState.TERMINATED := by
  cases hstep with
  | create_organism name genes =>
      exact create_organism_preserves_terminated os name genes hb pid h
  | run_tick => exact run_tick_preserves_terminated os pid h
  | schedule o sched' hs =>
      have hp := scheduleStep_processes _ _ _ hs
      simpa [BioOS.stateOf, hp] using h
  | terminate_process pid2 => exact terminate_preserves_terminated os pid2 pid h
  | allocate id size => exact h
  | deallocate id => exact h
  | emit e => exact h
  | process_events => exact h
  | boot => exact h
  | shutdown => exact h
  | simulate d =>
      exact simLoop_preserves_terminated _ _ _ h

theorem scheduleStep_counter (s : ProcessScheduler) (o : Option Nat)
    (s' : ProcessScheduler) (h : ScheduleStep s o s') :
    s'.pid_counter = s.pid_counter := by
  cases h <;> rfl

theorem create_organism_sched_bounded (os : BioOS) (name : String)
    (genes : List Gene) (hb : schedBounded os.scheduler) :
    schedBounded ((os.create_organism name genes).2).scheduler := by
  unfold BioOS.create_organism
  dsimp only
  simp only [ProcessScheduler.create_process, ProcessScheduler.setProc,
    lookupAL_insertAL_self]
  intro kv hkv
  show kv.1 < os.scheduler.pid_counter + 1
  rcases mem_insertAL _ _ _ _ hkv with he | hm
  · omega
  · rcases mem_insertAL _ _ _ _ hm with he | hm2
    · omega
    · have := hb kv hm2
      omega

theorem foldl_tickEntity_sched_bounded (pids : List Nat) (os : BioOS)
    (hb : schedBounded os.scheduler) :
    schedBounded (pids.foldl BioOS.tickEntity os).scheduler := by
  induction pids generalizing os with
  | nil => exact hb
  | cons q rest ih => exact ih _ (tickEntity_sched os q hb).1

theorem run_tick_sched_bounded (os : BioOS) (hb : schedBounded os.scheduler) :
    schedBounded os.run_tick.scheduler := by
  unfold BioOS.run_tick
  exact foldl_tickEntity_sched_bounded _ _ hb

theorem simLoop_sched_bounded (n : Nat) : ∀ os : BioOS,
    schedBounded os.scheduler → schedBounded (BioOS.simLoop n os).scheduler := by
  induction n with
  | zero => intro os hb; exact hb
  | succ n ih =>
      intro os hb
      rw [BioOS.simLoop]
      split
      · exact ih _ (run_tick_sched_bounded os hb)
      · exact hb

theorem kernelStep_sched_bounded (os os' : BioOS) (hstep : KernelStep os os')
    (hb : schedBounded os.scheduler) : schedBounded os'.scheduler := by
  cases hstep with
  | create_organism name genes => exact create_organism_sched_bounded os name genes hb
  | run_tick => exact run_tick_sched_bounded os hb
  | schedule o sched' hs =>
      intro kv hkv
      rw [scheduleStep_counter _ _ _ hs]
      exact hb kv ((scheduleStep_processes _ _ _ hs) ▸ hkv)
  | terminate_process pid => exact schedBounded_terminate _ _ hb
  | allocate id size => exact hb
  | deallocate id => exact hb
  | emit e => exact hb
  | process_events => exact hb
  | boot => exact hb
  | shutdown => exact hb
  | simulate d => exact simLoop_sched_bounded _ _ hb

theorem reachable_sched_bounded (os : BioOS) (h : os.Reachable) :
    schedBounded os.scheduler := by
  obtain ⟨ts, hr⟩ := h
  induction hr with
  | refl => intro kv hkv; simp [BioOS.create] at hkv
  | tail hsteps hstep ih => exact kernelStep_sched_bounded _ _ hstep ih

/-- C2 (confirmed): TERMINATED is terminal at the granularity of whole
kernel operations — for every reachable kernel state and every entity whose
recorded state is TERMINATED, no core operation (create_organism, run_tick,
schedule, terminate_process, allocate, deallocate, emit, process_events,
boot, shutdown, simulate) ever leaves that entity in a state other than
TERMINATED: a TERMINATED entity is filtered out of `get_all_processes`, so
`run_tick` never touches it, `terminate_process` re-marks it TERMINATED,
and no other operation writes any entity state.  (Within a single
`run_tick`, an entity whose energy hits 0 is transiently TERMINATED and
then resurrected to READY by line 304 — that intra-operation defect is
claim C1; it never leaves an operation boundary with a TERMINATED entity
un-terminated.) -/
theorem terminated_is_terminal_across_kernel_ops (os os' : BioOS) (pid : Nat)
    (hreach : os.Reachable) (hstep : KernelStep os os')
    (hterm : os.stateOf pid = some ProcessState.TERMINATED) :
    os'.stateOf pid = some ProcessState.TERMINATED :=
  kernelStep_preserves_terminated os os' pid
    (reachable_sched_bounded os hreach) hstep hterm

/-- A freshly booted kernel with time step 1. -/
def c2_os0 : BioOS := BioOS.create 1

/-- The kernel after creating one organism (pid 0). -/
def c2_os1 : BioOS := (c2_os0.create_organism "Organism_1" []).2

/-- The kernel after an external `terminate_process(0)`: entity 0 is
TERMINATED in a reachable state. -/
def c2_os2 : BioOS := { c2_os1 with scheduler := (c2_os1.scheduler.terminate_process 0).2 }

/-- C2 (witness): the theorem applied to the reachable state `c2_os2`
(create organism 0, then terminate it) and the operation `run_tick`. -/
theorem terminated_is_terminal_witness :
    c2_os2.run_tick.stateOf 0 = some ProcessState.TERMINATED :=
  terminated_is_terminal_across_kernel_ops c2_os2 c2_os2.run_tick 0
    ⟨1, Relation.ReflTransGen.tail
        (Relation.ReflTransGen.tail Relation.ReflTransGen.refl
          (KernelStep.create_organism c2_os0 "Organism_1" []))
        (KernelStep.terminate_process c2_os1 0)⟩
    (KernelStep.run_tick c2_os2)
    (by decide)
